import Mathlib

/-
Verification of the pngdoctor PNG validator.

Shallow embedding of the modules `chunk_order_parser.py`, `lexer.py`,
`chunk_parsers.py` and `image_data_parser.py`.  Byte strings are modelled
as `List Nat`; Python exceptions are modelled with the `PErr` error type
and `Except`/`Option` results.
-/

/-- Error taxonomy, from `exceptions.py`. -/
inductive PErr where
  | streamStateError
  | unexpectedEOF
  | signatureMismatch
  | badCRC
  | pngSyntaxError
  | pngTooLarge
  deriving DecidableEq, Repr

/-- Helper: whether an `Except` result is an error. -/
def isErr {ε α : Type} : Except ε α → Bool
  | .error _ => true
  | .ok _ => false

/- ===================== chunk_order_parser.py ===================== -/

/-- Chunk type codes of `_CRITICAL_CHUNK_CODES`, `chunk_order_parser.py`. -/
def criticalChunkCodes : List String := ["IHDR", "PLTE", "IDAT", "IEND"]

/-- Codes of `_BEFORE_PALETTE`, `chunk_order_parser.py`. -/
def beforePaletteCodes : List String := ["cHRM", "gAMA", "iCCP", "sBIT", "sRGB"]

/-- Codes of `_AFTER_PALETTE_BEFORE_DATA`, `chunk_order_parser.py`. -/
def afterPaletteBeforeDataCodes : List String := ["bKGD", "hIST", "tRNS"]

/-- Codes of `_BEFORE_DATA`, `chunk_order_parser.py`. -/
def beforeDataCodes : List String := ["pHYs", "sPLT"]

/-- Codes of `_ALLOWED_ANYWHERE`, `chunk_order_parser.py`. -/
def allowedAnywhereCodes : List String := ["tIME", "iTXt", "tEXt", "zTXt"]

/-- `_KNOWN_CHUNKS`: the union of the five classification sets. -/
def knownChunks : List String :=
  criticalChunkCodes ++ beforePaletteCodes ++ afterPaletteBeforeDataCodes ++
    beforeDataCodes ++ allowedAnywhereCodes

/-- The state enum `_ChunkOrderState`, `chunk_order_parser.py`. -/
inductive ChunkOrderState where
  | beforeHeader
  | beforePalette
  | afterPaletteBeforeData
  | duringData
  | afterData
  | afterTrailer
  deriving DecidableEq, Repr

/-- The transition mapping `_ChunkOrderStateTransitionMap`: an association
list `_map` plus the optional `_unknown_chunk_next_state`. -/
structure ChunkOrderStateTransitionMap where
  map : List (String × ChunkOrderState)
  unknownChunkNextState : Option ChunkOrderState

/-- `_ChunkOrderStateTransitionMap.__getitem__`: look the code up in
`_map`; on a miss fall back to `_unknown_chunk_next_state` unless it is
unset or the code is a known chunk (`None` models a raised `KeyError`). -/
def ChunkOrderStateTransitionMap.getItem (m : ChunkOrderStateTransitionMap)
    (code : String) : Option ChunkOrderState :=
  match m.map.lookup code with
  | some s => some s
  | none =>
      if m.unknownChunkNextState = none ∨ code ∈ knownChunks then none
      else m.unknownChunkNextState

/-- Pair each code of a list with one next state,
as `add_transitions` does. -/
def addTransitions (s : ChunkOrderState) (codes : List String) :
    List (String × ChunkOrderState) :=
  codes.map (fun c => (c, s))

/-- `before_header_transitions` built in `ChunkOrderParser.__init__`. -/
def beforeHeaderTransitions : ChunkOrderStateTransitionMap :=
  { map := [("IHDR", .beforePalette)], unknownChunkNextState := none }

/-- `before_palette_transitions` built in `ChunkOrderParser.__init__`. -/
def beforePaletteTransitions : ChunkOrderStateTransitionMap :=
  { map :=
      addTransitions .beforePalette
        (beforePaletteCodes ++ beforeDataCodes ++ allowedAnywhereCodes) ++
      addTransitions .afterPaletteBeforeData afterPaletteBeforeDataCodes ++
      [("PLTE", .afterPaletteBeforeData), ("IDAT", .duringData)],
    unknownChunkNextState := some .beforePalette }

/-- `after_palette_before_data_transitions` built in
`ChunkOrderParser.__init__`. -/
def afterPaletteBeforeDataTransitions : ChunkOrderStateTransitionMap :=
  { map :=
      addTransitions .afterPaletteBeforeData
        (afterPaletteBeforeDataCodes ++ beforeDataCodes ++
          allowedAnywhereCodes) ++
      [("IDAT", .duringData)],
    unknownChunkNextState := some .afterPaletteBeforeData }

/-- `during_data_transitions` built in `ChunkOrderParser.__init__`. -/
def duringDataTransitions : ChunkOrderStateTransitionMap :=
  { map :=
      [("IDAT", .duringData)] ++
      addTransitions .afterData allowedAnywhereCodes ++
      [("IEND", .afterTrailer)],
    unknownChunkNextState := some .afterData }

/-- `after_data_transitions` built in `ChunkOrderParser.__init__`. -/
def afterDataTransitions : ChunkOrderStateTransitionMap :=
  { map :=
      addTransitions .afterData allowedAnywhereCodes ++
      [("IEND", .afterTrailer)],
    unknownChunkNextState := some .afterData }

/-- The per-state transition table `self._transitions` (the end state
`after_trailer` maps to an empty dict). -/
def chunkOrderTransitions : ChunkOrderState → ChunkOrderStateTransitionMap
  | .beforeHeader => beforeHeaderTransitions
  | .beforePalette => beforePaletteTransitions
  | .afterPaletteBeforeData => afterPaletteBeforeDataTransitions
  | .duringData => duringDataTransitions
  | .afterData => afterDataTransitions
  | .afterTrailer => { map := [], unknownChunkNextState := none }

/-- `_multiple_allowed` of `_ChunkCountValidator.__init__`. -/
def multipleAllowedCodes : List String :=
  ["IDAT", "sPLT", "iTXt", "tEXt", "zTXt"]

/-- The counter `_nseen` is modelled as the list of codes seen so far;
`nseen[code]` is `counts.count code`. -/
def ChunkCountValidator.check (counts : List String) (code : String) :
    Except PErr (List String) :=
  if counts.count code ≥ 1 ∧ code ∉ multipleAllowedCodes ∧
      code ∈ knownChunks then
    .error .pngSyntaxError
  else
    .ok (code :: counts)

/-- Full mutable state of a `ChunkOrderParser`: `_state` and `_counts`. -/
structure ChunkOrderParserState where
  state : ChunkOrderState
  counts : List String

/-- Initial state set in `ChunkOrderParser.__init__`. -/
def ChunkOrderParser.initial : ChunkOrderParserState :=
  { state := .beforeHeader, counts := [] }

/-- `ChunkOrderParser.validate`: first `self._counts.check(chunk_code)`,
then the transition lookup; a missing transition raises `PNGSyntaxError`. -/
def ChunkOrderParser.validate (ps : ChunkOrderParserState) (code : String) :
    Except PErr ChunkOrderParserState :=
  match ChunkCountValidator.check ps.counts code with
  | .error e => .error e
  | .ok counts =>
      match (chunkOrderTransitions ps.state).getItem code with
      | none => .error .pngSyntaxError
      | some next => .ok { state := next, counts := counts }

/-- `ChunkOrderParser.validate_end`: error unless in `after_trailer`. -/
def ChunkOrderParser.validateEnd (ps : ChunkOrderParserState) :
    Except PErr Unit :=
  if ps.state = .afterTrailer then .ok () else .error .pngSyntaxError

/-- Feed a whole sequence of chunk codes through `validate`. -/
def ChunkOrderParser.validateSeq (codes : List String) :
    Except PErr ChunkOrderParserState :=
  codes.foldlM ChunkOrderParser.validate ChunkOrderParser.initial

/- Helper lemmas about the chunk order parser. -/

/-- In the initial state only IHDR is accepted. -/
theorem validate_initial_not_ihdr (code : String) (h : code ≠ "IHDR") :
    isErr (ChunkOrderParser.validate ChunkOrderParser.initial code) = true := by
  simp [ChunkOrderParser.validate, ChunkCountValidator.check,
    ChunkOrderParser.initial, chunkOrderTransitions, beforeHeaderTransitions,
    ChunkOrderStateTransitionMap.getItem, List.lookup,
    beq_eq_false_iff_ne.mpr h, isErr]

/-- After `after_trailer` every code is rejected. -/
theorem validate_after_trailer_rejects (ps : ChunkOrderParserState)
    (code : String) (h : ps.state = .afterTrailer) :
    isErr (ChunkOrderParser.validate ps code) = true := by
  unfold ChunkOrderParser.validate
  cases ChunkCountValidator.check ps.counts code with
  | error e => rfl
  | ok c =>
      simp [h, chunkOrderTransitions, ChunkOrderStateTransitionMap.getItem,
        List.lookup, isErr]

/-- An unknown code seen in `during_data` moves the parser to `after_data`. -/
theorem validate_during_data_unknown (code : String) (h : code ∉ knownChunks)
    (counts : List String) :
    ChunkOrderParser.validate ⟨.duringData, counts⟩ code =
      .ok ⟨.afterData, code :: counts⟩ := by
  have h1 : code ≠ "IDAT" := fun e => h (by rw [e]; decide)
  have h2 : code ≠ "tIME" := fun e => h (by rw [e]; decide)
  have h3 : code ≠ "iTXt" := fun e => h (by rw [e]; decide)
  have h4 : code ≠ "tEXt" := fun e => h (by rw [e]; decide)
  have h5 : code ≠ "zTXt" := fun e => h (by rw [e]; decide)
  have h6 : code ≠ "IEND" := fun e => h (by rw [e]; decide)
  simp [ChunkOrderParser.validate, ChunkCountValidator.check, h,
    chunkOrderTransitions, duringDataTransitions, addTransitions,
    allowedAnywhereCodes, ChunkOrderStateTransitionMap.getItem, List.lookup,
    beq_eq_false_iff_ne.mpr h1, beq_eq_false_iff_ne.mpr h2,
    beq_eq_false_iff_ne.mpr h3, beq_eq_false_iff_ne.mpr h4,
    beq_eq_false_iff_ne.mpr h5, beq_eq_false_iff_ne.mpr h6]

/-- `validate_end` errors exactly outside the accepting state. -/
theorem validateEnd_iff (ps : ChunkOrderParserState) :
    isErr (ChunkOrderParser.validateEnd ps) = true ↔
      ps.state ≠ .afterTrailer := by
  unfold ChunkOrderParser.validateEnd
  split <;> simp_all [isErr]

/-- A second occurrence of a known, multiplicity-restricted code fails the
count check. -/
theorem check_second_occurrence_fails (code : String) (counts : List String)
    (hk : code ∈ knownChunks) (hm : code ∉ multipleAllowedCodes)
    (hs : counts.count code ≥ 1) :
    isErr (ChunkCountValidator.check counts code) = true := by
  simp [ChunkCountValidator.check, hk, hm, hs, isErr]

/-- Multiple-allowed and unknown codes always pass the count check. -/
theorem check_unlimited_ok (code : String) (counts : List String)
    (h : code ∈ multipleAllowedCodes ∨ code ∉ knownChunks) :
    ChunkCountValidator.check counts code = .ok (code :: counts) := by
  unfold ChunkCountValidator.check
  rcases h with h | h <;> simp [h]

/-- The count check runs before the transition: its failure fails
`validate` regardless of the ordering state. -/
theorem check_fails_validate_fails (ps : ChunkOrderParserState)
    (code : String)
    (h : isErr (ChunkCountValidator.check ps.counts code) = true) :
    isErr (ChunkOrderParser.validate ps code) = true := by
  unfold ChunkOrderParser.validate
  cases hc : ChunkCountValidator.check ps.counts code with
  | error e => rfl
  | ok c => rw [hc] at h; simp [isErr] at h

/-- C4: `[IHDR, IDAT, IEND]` and `[IHDR, PLTE, IDAT, IEND]` validate into
the accepting `after_trailer` state; `[IHDR, PLTE, IEND]` is rejected;
any first code other than IHDR is rejected; every code after
`after_trailer` is rejected; an unknown code during the data run moves
the parser to `after_data`; and `validate_end` errors exactly when the
state is not `after_trailer`. -/
theorem chunk_order_fsm_behaviour :
    ((ChunkOrderParser.validateSeq ["IHDR", "IDAT", "IEND"]).map
        ChunkOrderParserState.state = .ok .afterTrailer) ∧
    ((ChunkOrderParser.validateSeq ["IHDR", "PLTE", "IDAT", "IEND"]).map
        ChunkOrderParserState.state = .ok .afterTrailer) ∧
    isErr (ChunkOrderParser.validateSeq ["IHDR", "PLTE", "IEND"]) = true ∧
    (∀ code : String, code ≠ "IHDR" →
      isErr (ChunkOrderParser.validate ChunkOrderParser.initial code) =
        true) ∧
    (∀ (ps : ChunkOrderParserState) (code : String),
      ps.state = .afterTrailer →
        isErr (ChunkOrderParser.validate ps code) = true) ∧
    (∀ code : String, code ∉ knownChunks → ∀ counts : List String,
      ChunkOrderParser.validate ⟨.duringData, counts⟩ code =
        .ok ⟨.afterData, code :: counts⟩) ∧
    (∀ ps : ChunkOrderParserState,
      isErr (ChunkOrderParser.validateEnd ps) = true ↔
        ps.state ≠ .afterTrailer) :=
  ⟨by rfl, by rfl, by rfl, validate_initial_not_ihdr,
    validate_after_trailer_rejects, validate_during_data_unknown,
    validateEnd_iff⟩

/-- Witness for C4 at concrete inputs. -/
theorem chunk_order_fsm_behaviour_witness :
    isErr (ChunkOrderParser.validate ChunkOrderParser.initial "pHYs") =
      true ∧
    ChunkOrderParser.validate ⟨.duringData, ["IHDR", "IDAT"]⟩ "ukwn" =
      .ok ⟨.afterData, ["ukwn", "IHDR", "IDAT"]⟩ :=
  ⟨chunk_order_fsm_behaviour.2.2.2.1 "pHYs" (by decide),
    chunk_order_fsm_behaviour.2.2.2.2.2.1 "ukwn" (by decide)
      ["IHDR", "IDAT"]⟩

/-- C5: the occurrence-count check, run before the ordering transition,
fails on a second occurrence of any known chunk type outside the
multiple-allowed set, while multiple-allowed types and unknown codes pass
it with any prior count. -/
theorem chunk_count_multiplicity :
    (∀ (code : String) (counts : List String), code ∈ knownChunks →
      code ∉ multipleAllowedCodes → counts.count code ≥ 1 →
        isErr (ChunkCountValidator.check counts code) = true) ∧
    (∀ (code : String) (counts : List String),
      code ∈ multipleAllowedCodes ∨ code ∉ knownChunks →
        ChunkCountValidator.check counts code = .ok (code :: counts)) ∧
    (∀ (ps : ChunkOrderParserState) (code : String),
      isErr (ChunkCountValidator.check ps.counts code) = true →
        isErr (ChunkOrderParser.validate ps code) = true) :=
  ⟨fun code counts hk hm hs =>
      check_second_occurrence_fails code counts hk hm hs,
    fun code counts h => check_unlimited_ok code counts h,
    check_fails_validate_fails⟩

/-- Witness for C5 at concrete inputs. -/
theorem chunk_count_multiplicity_witness :
    isErr (ChunkCountValidator.check ["IHDR"] "IHDR") = true ∧
    ChunkCountValidator.check ["IDAT", "IDAT"] "IDAT" =
      .ok ["IDAT", "IDAT", "IDAT"] :=
  ⟨chunk_count_multiplicity.1 "IHDR" ["IHDR"] (by decide) (by decide)
      (by decide),
    chunk_count_multiplicity.2.1 "IDAT" ["IDAT", "IDAT"]
      (Or.inl (by decide))⟩

/- ===================== lexer.py ===================== -/

/-- `PNG_SIGNATURE`, `lexer.py`. -/
def PNG_SIGNATURE : List Nat := [0x89, 0x50, 0x4E, 0x47, 0x0D, 0x0A, 0x1A, 0x0A]

/-- `PNG_MAX_FILE_SIZE`: 20 MiB. -/
def PNG_MAX_FILE_SIZE : Nat := 20 * 2 ^ 20

/-- `PNG_MAX_CHUNK_LENGTH`. -/
def PNG_MAX_CHUNK_LENGTH : Nat := 2 ^ 31 - 1

/-- `_SingleChunkState.PNG_CHUNK_MAX_DATA_READ`: 4 KiB. -/
def PNG_CHUNK_MAX_DATA_READ : Nat := 4 * 2 ^ 10

/-- Allowed chunk type code bytes
(`models.PNG_CHUNK_TYPE_CODE_ALLOWED_BYTES`): ASCII letters. -/
def pngChunkTypeCodeAllowedByte (b : Nat) : Bool :=
  (65 ≤ b && b ≤ 90) || (97 ≤ b && b ≤ 122)

/-- State of a `ChunkTokenStream`: the byte counter `total_bytes_read`
and the not-yet-consumed bytes of the underlying stream. -/
structure LexState where
  totalBytesRead : Nat
  stream : List Nat
  deriving DecidableEq, Repr

/-- `ChunkTokenStream._read`.  The first component is the result
(`UnexpectedEOF` on a short read, `PNGTooLarge` when the budget would be
exceeded), the second the stream state afterwards, and the third records
whether the underlying source's `read` method was invoked at all. -/
def ChunkTokenStream.read (st : LexState) (length : Nat) :
    Except PErr (List Nat) × LexState × Bool :=
  if length + st.totalBytesRead > PNG_MAX_FILE_SIZE then
    (.error .pngTooLarge, st, false)
  else
    let data := st.stream.take length
    let st' : LexState :=
      { totalBytesRead := st.totalBytesRead + data.length,
        stream := st.stream.drop length }
    if length > data.length then (.error .unexpectedEOF, st', true)
    else (.ok data, st', true)

/-- `ChunkTokenStream._read` as an `Except` action (raising an exception
in Python aborts the iteration, so the error cases drop the state). -/
def lexRead (st : LexState) (length : Nat) :
    Except PErr (List Nat × LexState) :=
  match ChunkTokenStream.read st length with
  | (.ok data, st', _) => .ok (data, st')
  | (.error e, _, _) => .error e

/-- One step of the CRC-32 bit loop.
Modelled from the spec: the standard CRC-32 with reflected polynomial
0xEDB88320, i.e. `zlib.crc32`, which `lexer.py` calls but whose code is
outside this repository. -/
def crc32Step (c : Nat) : Nat :=
  if c % 2 = 1 then Nat.xor (c / 2) 0xEDB88320 else c / 2

/-- Fold one data byte into the raw (pre-inversion) CRC-32 register.
Modelled from the spec (see `crc32Step`). -/
def crc32Byte (c : Nat) (b : Nat) : Nat :=
  (crc32Step ∘ crc32Step ∘ crc32Step ∘ crc32Step ∘
    crc32Step ∘ crc32Step ∘ crc32Step ∘ crc32Step) (Nat.xor c (b % 256))

/-- `zlib.crc32(data, value)`: running CRC-32 over `data` continuing from
`value`.  Modelled from the spec (see `crc32Step`). -/
def crc32 (value : Nat) (data : List Nat) : Nat :=
  Nat.xor (data.foldl crc32Byte (Nat.xor value 0xFFFFFFFF)) 0xFFFFFFFF

/-- `struct.unpack` of a big-endian unsigned integer. -/
def beUint (bytes : List Nat) : Nat :=
  bytes.foldl (fun acc b => acc * 256 + b) 0

/-- `models.ChunkHeadToken` (the namedtuple `PNGChunkHeadToken` of
`decoder.py`): declared data length, 4-byte type code, and position. -/
structure ChunkHeadToken where
  length : Nat
  code : List Nat
  position : Nat
  deriving DecidableEq, Repr

/-- The three token kinds emitted by `ChunkTokenStream.__iter__`
(`models.ChunkHeadToken`, `models.ChunkDataPartToken`,
`models.ChunkEndToken`). -/
inductive ChunkToken where
  | headTok : ChunkHeadToken → ChunkToken
  | dataPartTok : ChunkHeadToken → List Nat → ChunkToken
  | endTok : ChunkHeadToken → Bool → ChunkToken
  deriving DecidableEq, Repr

/-- `ChunkTokenStream._get_chunk_head`: read 3 more length bytes (one was
already consumed as the EOF probe), bound-check the length, read and
check the 4 code bytes.  `start_position` is `total_bytes_read` at entry,
i.e. after the probe byte was consumed. -/
def getChunkHead (st : LexState) (prependByte : List Nat) :
    Except PErr (ChunkHeadToken × LexState) := do
  let startPosition := st.totalBytesRead
  let (lengthRest, st) ← lexRead st 3
  let length := beUint (prependByte ++ lengthRest)
  if length > PNG_MAX_CHUNK_LENGTH then
    .error .pngSyntaxError
  else do
    let (typeCode, st) ← lexRead st 4
    if !typeCode.all pngChunkTypeCodeAllowedByte then
      .error .pngSyntaxError
    else
      .ok (⟨length, typeCode, startPosition⟩, st)

/-- The loop `while self._chunk_state.next_read > 0: yield
self._get_chunk_data()` together with `_SingleChunkState.update` and
`_update_next_read`: repeatedly read `min(4096, data_remaining)` bytes,
emitting one `ChunkDataPartToken` per read and folding each slice into
the running CRC.  Returns the tokens emitted so far and either the final
CRC and stream state or the error that aborted the loop.  `fuel` bounds
the number of loop iterations; since every iteration lowers
`data_remaining` by at least one, `dataRemaining + 1` always
suffices. -/
def getDataParts (fuel : Nat) (st : LexState) (head : ChunkHeadToken)
    (dataRemaining crc : Nat) :
    List ChunkToken × Except PErr (Nat × LexState) :=
  match fuel with
  | 0 => ([], .error .streamStateError)
  | fuel + 1 =>
      let nextRead := min PNG_CHUNK_MAX_DATA_READ dataRemaining
      if nextRead = 0 then ([], .ok (crc, st))
      else
        match lexRead st nextRead with
        | .error e => ([], .error e)
        | .ok (data, st') =>
            let (toks, r) :=
              getDataParts fuel st' head (dataRemaining - nextRead)
                (crc32 crc data)
            (.dataPartTok head data :: toks, r)

/-- `ChunkTokenStream._get_chunk_end`: read the 4 declared CRC bytes and
compare with the computed value. -/
def getChunkEnd (st : LexState) (head : ChunkHeadToken) (crc : Nat) :
    Except PErr ((ChunkHeadToken × Bool) × LexState) := do
  let (crcBytes, st) ← lexRead st 4
  let declared := beUint crcBytes
  .ok ((head, declared = crc), st)

/-- The body of `ChunkTokenStream.__iter__` for one chunk, after the
1-byte EOF probe succeeded: head, data parts, end.  On a CRC mismatch
`BadCRC` is raised and the end token is not emitted.  Returns the tokens
emitted for this chunk and either the next state or the aborting error. -/
def processChunk (st : LexState) (initial : List Nat) :
    List ChunkToken × Except PErr LexState :=
  match getChunkHead st initial with
  | .error e => ([], .error e)
  | .ok (head, st) =>
      match getDataParts (head.length + 1) st head head.length
          (crc32 0 head.code) with
      | (toks, .error e) => (.headTok head :: toks, .error e)
      | (toks, .ok (crc, st)) =>
          match getChunkEnd st head crc with
          | .error e => (.headTok head :: toks, .error e)
          | .ok ((h, crcOk), st) =>
              if crcOk then
                (.headTok head :: toks ++ [.endTok h crcOk], .ok st)
              else
                (.headTok head :: toks, .error .badCRC)

/-- The chunk loop of `ChunkTokenStream.__iter__`: probe one byte (EOF
here ends the stream cleanly), then process one chunk and repeat.  `fuel`
bounds the recursion; each iteration consumes at least 12 stream bytes,
so `stream.length + 1` is always sufficient. -/
def lexIter : Nat → LexState → List ChunkToken × Option PErr
  | 0, _ => ([], none)
  | fuel + 1, st =>
      match lexRead st 1 with
      | .error .unexpectedEOF => ([], none)
      | .error e => ([], some e)
      | .ok (initial, st') =>
          match processChunk st' initial with
          | (toks, .error e) => (toks, some e)
          | (toks, .ok st'') =>
              let (toks', err) := lexIter fuel st''
              (toks ++ toks', err)

/-- `ChunkTokenStream.__iter__` on a whole byte stream: validate the
signature, then run the chunk loop.  Returns the emitted tokens and the
error that ended the iteration, if any. -/
def ChunkTokenStream.tokens (bytes : List Nat) :
    List ChunkToken × Option PErr :=
  let st0 : LexState := { totalBytesRead := 0, stream := bytes }
  match lexRead st0 PNG_SIGNATURE.length with
  | .error e => ([], some e)
  | .ok (header, st) =>
      if header ≠ PNG_SIGNATURE then ([], some .signatureMismatch)
      else lexIter (bytes.length + 1) st

/- Helper lemmas about the token stream. -/

/-- Characterization of a successful `_read`. -/
theorem lexRead_ok_iff (st : LexState) (length : Nat) (data : List Nat)
    (st' : LexState) :
    lexRead st length = .ok (data, st') ↔
      length + st.totalBytesRead ≤ PNG_MAX_FILE_SIZE ∧
      length ≤ st.stream.length ∧
      data = st.stream.take length ∧
      st' = ⟨st.totalBytesRead + length, st.stream.drop length⟩ := by
  simp only [lexRead, ChunkTokenStream.read]
  by_cases hgt : length + st.totalBytesRead > PNG_MAX_FILE_SIZE
  · rw [if_pos hgt]
    constructor
    · intro h; simp at h
    · rintro ⟨h1, -, -, -⟩; omega
  · rw [if_neg hgt]
    push_neg at hgt
    by_cases hshort : length > (List.take length st.stream).length
    · rw [if_pos hshort]
      simp only [List.length_take] at hshort
      constructor
      · intro h; simp at h
      · rintro ⟨h1, h2, -, -⟩; omega
    · rw [if_neg hshort]
      push_neg at hshort
      simp only [List.length_take] at hshort
      have hmin : min length st.stream.length = length := by omega
      constructor
      · intro h
        simp only [Except.ok.injEq, Prod.mk.injEq] at h
        obtain ⟨hd, hs⟩ := h
        refine ⟨by omega, by omega, hd.symm, ?_⟩
        rw [← hs]
        simp only [List.length_take, hmin]
      · rintro ⟨h1, h2, h3, h4⟩
        simp only [Except.ok.injEq, Prod.mk.injEq]
        exact ⟨h3.symm, by rw [h4]; simp only [List.length_take, hmin]⟩

/-- A single `_read` keeps the byte counter within the budget. -/
theorem read_preserves_budget (st : LexState) (length : Nat)
    (h : st.totalBytesRead ≤ PNG_MAX_FILE_SIZE) :
    ((ChunkTokenStream.read st length).2.1).totalBytesRead ≤
      PNG_MAX_FILE_SIZE := by
  simp only [ChunkTokenStream.read]
  split
  · exact h
  · rename_i hle
    push_neg at hle
    split <;> (simp only [List.length_take]; omega)

/-- Iterate `_read` over a list of request lengths, keeping only the
stream state (the read results are discarded). -/
def readMany (st : LexState) (lengths : List Nat) : LexState :=
  lengths.foldl (fun s l => (ChunkTokenStream.read s l).2.1) st

/-- Any sequence of `_read` calls keeps the counter within the budget. -/
theorem readMany_preserves_budget (st : LexState) (lengths : List Nat)
    (h : st.totalBytesRead ≤ PNG_MAX_FILE_SIZE) :
    (readMany st lengths).totalBytesRead ≤ PNG_MAX_FILE_SIZE := by
  induction lengths generalizing st with
  | nil => exact h
  | cons l ls ih => exact ih _ (read_preserves_budget st l h)

/-- A successful head parse records `total_bytes_read` at entry as the
token's position. -/
theorem getChunkHead_position (st : LexState) (init : List Nat)
    (head : ChunkHeadToken) (st₂ : LexState)
    (h : getChunkHead st init = .ok (head, st₂)) :
    head.position = st.totalBytesRead := by
  simp only [getChunkHead, bind, Except.bind] at h
  repeat' split at h
  any_goals exact Except.noConfusion h
  injection h with h1
  injection h1 with ha hb
  rw [← ha]

/-- C6: an over-budget read request fails with `PNGTooLarge` without
invoking the underlying source's `read` and without changing the
counter, and the cumulative total-bytes-read counter can never pass
20 MiB, neither in one read nor across any sequence of reads. -/
theorem read_twenty_mib_budget :
    (∀ (st : LexState) (length : Nat),
      length + st.totalBytesRead > PNG_MAX_FILE_SIZE →
        ChunkTokenStream.read st length = (.error .pngTooLarge, st, false)) ∧
    (∀ (st : LexState) (length : Nat),
      st.totalBytesRead ≤ PNG_MAX_FILE_SIZE →
        ((ChunkTokenStream.read st length).2.1).totalBytesRead ≤
          PNG_MAX_FILE_SIZE) ∧
    (∀ (st : LexState) (lengths : List Nat),
      st.totalBytesRead ≤ PNG_MAX_FILE_SIZE →
        (readMany st lengths).totalBytesRead ≤ PNG_MAX_FILE_SIZE) :=
  ⟨fun st length h => by simp only [ChunkTokenStream.read]; rw [if_pos h],
    read_preserves_budget, readMany_preserves_budget⟩

/-- Witness for C6 at concrete inputs. -/
theorem read_twenty_mib_budget_witness :
    ChunkTokenStream.read ⟨20 * 2 ^ 20, [1, 2, 3]⟩ 1 =
      (.error .pngTooLarge, ⟨20 * 2 ^ 20, [1, 2, 3]⟩, false) ∧
    (readMany ⟨0, [1, 2, 3]⟩ [2, 2, 2]).totalBytesRead ≤
      PNG_MAX_FILE_SIZE :=
  ⟨read_twenty_mib_budget.1 ⟨20 * 2 ^ 20, [1, 2, 3]⟩ 1 (by decide),
    read_twenty_mib_budget.2.2 ⟨0, [1, 2, 3]⟩ [2, 2, 2] (by decide)⟩

/-- C10 counterexample: on the minimal stream (signature followed by one
IEND chunk) the first chunk begins at stream offset 8, but the emitted
head token's position field is 9, not 8. -/
theorem chunk_head_position_not_chunk_start :
    (ChunkTokenStream.tokens
        [137, 80, 78, 71, 13, 10, 26, 10,
          0, 0, 0, 0, 73, 69, 78, 68, 174, 66, 96, 130]).1.head? ≠
      some (.headTok ⟨0, [73, 69, 78, 68], 8⟩) ∧
    (ChunkTokenStream.tokens
        [137, 80, 78, 71, 13, 10, 26, 10,
          0, 0, 0, 0, 73, 69, 78, 68, 174, 66, 96, 130]).1.head? =
      some (.headTok ⟨0, [73, 69, 78, 68], 9⟩) := by
  constructor <;> decide

/-- C10 amended: each emitted head token's position equals the stream
offset of the chunk's first byte plus one (the value of
`total_bytes_read` after the one-byte EOF probe); in particular the
first chunk after the 8-byte signature has position 9. -/
theorem chunk_head_position_offset_plus_one :
    (∀ (st st₁ st₂ : LexState) (init : List Nat) (head : ChunkHeadToken),
      lexRead st 1 = .ok (init, st₁) →
      getChunkHead st₁ init = .ok (head, st₂) →
        head.position = st.totalBytesRead + 1) ∧
    (ChunkTokenStream.tokens
        [137, 80, 78, 71, 13, 10, 26, 10,
          0, 0, 0, 0, 73, 69, 78, 68, 174, 66, 96, 130]).1.head? =
      some (.headTok ⟨0, [73, 69, 78, 68], 9⟩) := by
  constructor
  · intro st st₁ st₂ init head h1 h2
    obtain ⟨-, -, -, hst⟩ := (lexRead_ok_iff st 1 init st₁).mp h1
    rw [getChunkHead_position st₁ init head st₂ h2, hst]
  · decide

/-- Witness for C10's amended theorem at a concrete input. -/
theorem chunk_head_position_offset_plus_one_witness :
    (⟨0, [73, 69, 78, 68], 9⟩ : ChunkHeadToken).position = 8 + 1 :=
  chunk_head_position_offset_plus_one.1
    ⟨8, [0, 0, 0, 0, 73, 69, 78, 68, 174, 66, 96, 130]⟩
    ⟨9, [0, 0, 0, 73, 69, 78, 68, 174, 66, 96, 130]⟩
    ⟨16, [174, 66, 96, 130]⟩ [0] ⟨0, [73, 69, 78, 68], 9⟩
    (by rfl) (by rfl)

set_option maxRecDepth 10000

/-- Modelled from the spec: the pieces of a chunk's data, obtained by
repeatedly taking `min(4096, data_remaining)` bytes.  `fuel` bounds the
iteration count exactly as for `getDataParts`. -/
def specChunkPiecesGo : Nat → Nat → List Nat → List (List Nat)
  | 0, _, _ => []
  | fuel + 1, remaining, data =>
      let n := min PNG_CHUNK_MAX_DATA_READ remaining
      if n = 0 then []
      else data.take n :: specChunkPiecesGo fuel (remaining - n) (data.drop n)

/-- Modelled from the spec: split chunk data of declared length
`remaining` into its consecutive read pieces. -/
def specChunkPieces (remaining : Nat) (data : List Nat) : List (List Nat) :=
  specChunkPiecesGo (remaining + 1) remaining data

/-- The piece splitter does not depend on the fuel, as long as the fuel
exceeds the declared length. -/
theorem specChunkPiecesGo_fuel (f₁ : Nat) :
    ∀ (f₂ r : Nat) (d : List Nat), r < f₁ → r < f₂ →
      specChunkPiecesGo f₁ r d = specChunkPiecesGo f₂ r d := by
  induction f₁ with
  | zero => intro f₂ r d h1; omega
  | succ f ih =>
      intro f₂ r d h1 h2
      cases f₂ with
      | zero => omega
      | succ g =>
          simp only [specChunkPiecesGo]
          by_cases hn : min PNG_CHUNK_MAX_DATA_READ r = 0
          · rw [if_pos hn, if_pos hn]
          · rw [if_neg hn, if_neg hn]
            have hle : min PNG_CHUNK_MAX_DATA_READ r ≤ r :=
              Nat.min_le_right _ _
            rw [ih g (r - min PNG_CHUNK_MAX_DATA_READ r) (d.drop _)
              (by omega) (by omega)]

/-- Concatenating the pieces reproduces the data. -/
theorem specChunkPiecesGo_join (fuel : Nat) :
    ∀ (L : Nat) (data : List Nat), L < fuel → L = data.length →
      (specChunkPiecesGo fuel L data).flatten = data := by
  induction fuel with
  | zero => intro L data h1 h2; omega
  | succ f ih =>
      intro L data h1 h2
      have h4096 : 0 < PNG_CHUNK_MAX_DATA_READ := by decide
      simp only [specChunkPiecesGo]
      by_cases hn : min PNG_CHUNK_MAX_DATA_READ L = 0
      · rw [if_pos hn]
        have hL : L = 0 := by omega
        have hd : data = [] := List.eq_nil_of_length_eq_zero (by omega)
        subst hd
        rfl
      · rw [if_neg hn]
        have hle : min PNG_CHUNK_MAX_DATA_READ L ≤ L := Nat.min_le_right _ _
        rw [List.flatten_cons,
          ih (L - min PNG_CHUNK_MAX_DATA_READ L)
            (data.drop (min PNG_CHUNK_MAX_DATA_READ L)) (by omega)
            (by rw [List.length_drop]; omega)]
        exact List.take_append_drop _ data

/-- No piece is longer than the 4 KiB single-read bound. -/
theorem specChunkPiecesGo_bounded (fuel : Nat) :
    ∀ (L : Nat) (data p : List Nat),
      p ∈ specChunkPiecesGo fuel L data →
        p.length ≤ PNG_CHUNK_MAX_DATA_READ := by
  induction fuel with
  | zero => intro L data p h; simp [specChunkPiecesGo] at h
  | succ f ih =>
      intro L data p h
      simp only [specChunkPiecesGo] at h
      by_cases hn : min PNG_CHUNK_MAX_DATA_READ L = 0
      · rw [if_pos hn] at h; simp at h
      · rw [if_neg hn] at h
        rcases List.mem_cons.mp h with h | h
        · subst h
          simp only [List.length_take]
          omega
        · exact ih _ _ _ h

/-- The data loop emits exactly one `ChunkDataPartToken` per piece, in
order, and ends in the state that consumed exactly the declared number
of data bytes. -/
theorem getDataParts_spec (fuel : Nat) :
    ∀ (st : LexState) (head : ChunkHeadToken) (L crc : Nat),
      L < fuel → L ≤ st.stream.length →
      st.totalBytesRead + L ≤ PNG_MAX_FILE_SIZE →
      ∃ crc',
        getDataParts fuel st head L crc =
          ((specChunkPieces L (st.stream.take L)).map
              (fun d => ChunkToken.dataPartTok head d),
            .ok (crc', ⟨st.totalBytesRead + L, st.stream.drop L⟩)) := by
  induction fuel with
  | zero => intro st head L crc h1; omega
  | succ f ih =>
      intro st head L crc h1 h2 h3
      have h4096 : 0 < PNG_CHUNK_MAX_DATA_READ := by decide
      by_cases hn : min PNG_CHUNK_MAX_DATA_READ L = 0
      · have hL : L = 0 := by omega
        subst hL
        refine ⟨crc, ?_⟩
        simp only [getDataParts, specChunkPieces, specChunkPiecesGo, hn,
          if_pos, List.take_zero, List.drop_zero, List.map_nil,
          Nat.add_zero]
      · have hle : min PNG_CHUNK_MAX_DATA_READ L ≤ L := Nat.min_le_right _ _
        set n := min PNG_CHUNK_MAX_DATA_READ L with hndef
        have hread : lexRead st n =
            .ok (st.stream.take n,
              ⟨st.totalBytesRead + n, st.stream.drop n⟩) :=
          (lexRead_ok_iff st n _ _).mpr ⟨by omega, by omega, rfl, rfl⟩
        obtain ⟨crc', hrec⟩ :=
          ih ⟨st.totalBytesRead + n, st.stream.drop n⟩ head (L - n)
            (crc32 crc (st.stream.take n)) (by omega)
            (by simp only [List.length_drop]; omega)
            (by simp only []; omega)
        refine ⟨crc', ?_⟩
        simp only [getDataParts, hndef.symm]
        rw [if_neg hn, hread]
        simp only [hrec]
        simp only [Prod.mk.injEq]
        constructor
        · have hpieces :
              specChunkPieces L (st.stream.take L) =
                st.stream.take n ::
                  specChunkPieces (L - n)
                    ((st.stream.drop n).take (L - n)) := by
            simp only [specChunkPieces, specChunkPiecesGo, ← hndef]
            rw [if_neg hn]
            congr 1
            · rw [List.take_take]
              congr 1
              omega
            · rw [List.drop_take]
              exact specChunkPiecesGo_fuel L (L - n + 1) (L - n) _
                (by omega) (by omega)
          rw [hpieces, List.map_cons]
        · have hTot : st.totalBytesRead + n + (L - n) =
              st.totalBytesRead + L := by omega
          have hDrop : List.drop (L - n) (List.drop n st.stream) =
              List.drop L st.stream := by
            rw [List.drop_drop]
            congr 1
            omega
          rw [hTot, hDrop]

/-- C7: the data-part tokens of a chunk with declared length `L` carry
exactly the consecutive pieces obtained by repeatedly taking
`min(4096, data_remaining)` bytes; every piece is at most 4096 bytes,
their concatenation is exactly the chunk's data, and `L = 0` produces no
parts. -/
theorem chunk_data_part_tokens :
    ∀ (st : LexState) (head : ChunkHeadToken) (L crc fuel : Nat),
      L < fuel → L ≤ st.stream.length →
      st.totalBytesRead + L ≤ PNG_MAX_FILE_SIZE →
      ∃ crc',
        getDataParts fuel st head L crc =
          ((specChunkPieces L (st.stream.take L)).map
              (fun d => ChunkToken.dataPartTok head d),
            .ok (crc', ⟨st.totalBytesRead + L, st.stream.drop L⟩)) ∧
        (specChunkPieces L (st.stream.take L)).flatten =
          st.stream.take L ∧
        (∀ p ∈ specChunkPieces L (st.stream.take L),
          p.length ≤ PNG_CHUNK_MAX_DATA_READ) ∧
        (L = 0 → specChunkPieces L (st.stream.take L) = []) := by
  intro st head L crc fuel h1 h2 h3
  obtain ⟨crc', heq⟩ := getDataParts_spec fuel st head L crc h1 h2 h3
  refine ⟨crc', heq, ?_, ?_, ?_⟩
  · exact specChunkPiecesGo_join (L + 1) L _ (by omega)
      (by rw [List.length_take]; omega)
  · intro p hp
    exact specChunkPiecesGo_bounded (L + 1) L _ p hp
  · intro h0
    subst h0
    rfl

/-- Witness for C7 at a concrete input. -/
theorem chunk_data_part_tokens_witness :
    ∃ crc',
      getDataParts 4 ⟨0, [10, 20, 30]⟩ ⟨3, [73, 68, 65, 84], 9⟩ 3 0 =
        ((specChunkPieces 3 [10, 20, 30]).map
            (fun d => ChunkToken.dataPartTok ⟨3, [73, 68, 65, 84], 9⟩ d),
          .ok (crc', ⟨3, []⟩)) ∧
      (specChunkPieces 3 [10, 20, 30]).flatten = [10, 20, 30] ∧
      (∀ p ∈ specChunkPieces 3 [10, 20, 30],
        p.length ≤ PNG_CHUNK_MAX_DATA_READ) ∧
      (3 = 0 → specChunkPieces 3 [10, 20, 30] = []) :=
  chunk_data_part_tokens ⟨0, [10, 20, 30]⟩ ⟨3, [73, 68, 65, 84], 9⟩ 3 0 4
    (by decide) (by decide) (by decide)

/- Helper lemmas for the per-chunk CRC check. -/

/-- When the declared CRC differs from the computed one, the chunk's
processing yields its head and data-part tokens, no end token, and the
`BadCRC` error. -/
theorem processChunk_bad_crc (st st₂ st₃ st₄ : LexState)
    (init crcBytes : List Nat) (head : ChunkHeadToken)
    (toks : List ChunkToken) (crc : Nat)
    (hH : getChunkHead st init = .ok (head, st₂))
    (hD : getDataParts (head.length + 1) st₂ head head.length
        (crc32 0 head.code) = (toks, .ok (crc, st₃)))
    (hE : lexRead st₃ 4 = .ok (crcBytes, st₄))
    (hne : beUint crcBytes ≠ crc) :
    processChunk st init = (.headTok head :: toks, .error .badCRC) := by
  simp only [processChunk, hH, hD, getChunkEnd, bind, Except.bind, hE,
    decide_eq_false hne]
  rfl

/-- When the checksums agree the end token is emitted with
`crc_ok = true`. -/
theorem processChunk_good_crc (st st₂ st₃ st₄ : LexState)
    (init crcBytes : List Nat) (head : ChunkHeadToken)
    (toks : List ChunkToken) (crc : Nat)
    (hH : getChunkHead st init = .ok (head, st₂))
    (hD : getDataParts (head.length + 1) st₂ head head.length
        (crc32 0 head.code) = (toks, .ok (crc, st₃)))
    (hE : lexRead st₃ 4 = .ok (crcBytes, st₄))
    (heq : beUint crcBytes = crc) :
    processChunk st init =
      (.headTok head :: toks ++ [.endTok head true], .ok st₄) := by
  simp only [processChunk, hH, hD, getChunkEnd, bind, Except.bind, hE,
    decide_eq_true heq]
  rfl

/-- A chunk that aborts with an error ends the iteration with exactly the
tokens emitted so far: nothing of any later chunk is produced. -/
theorem lexIter_stops_on_error (fuel : Nat) (st st₁ : LexState)
    (init : List Nat) (toks : List ChunkToken) (e : PErr)
    (h1 : lexRead st 1 = .ok (init, st₁))
    (h2 : processChunk st₁ init = (toks, .error e)) :
    lexIter (fuel + 1) st = (toks, some e) := by
  simp only [lexIter, h1, h2]

/-- C8: a chunk whose declared big-endian CRC32 differs from the CRC-32
computed over its code and data raises `BadCRC` when the chunk's end is
processed, emitting no end token and no token of any subsequent chunk;
when they agree the end token carries `crc_ok = true`. -/
theorem crc_check_on_chunk_end :
    (∀ (st st₂ st₃ st₄ : LexState) (init crcBytes : List Nat)
        (head : ChunkHeadToken) (toks : List ChunkToken) (crc : Nat),
      getChunkHead st init = .ok (head, st₂) →
      getDataParts (head.length + 1) st₂ head head.length
          (crc32 0 head.code) = (toks, .ok (crc, st₃)) →
      lexRead st₃ 4 = .ok (crcBytes, st₄) →
      beUint crcBytes ≠ crc →
        processChunk st init = (.headTok head :: toks, .error .badCRC)) ∧
    (∀ (st st₂ st₃ st₄ : LexState) (init crcBytes : List Nat)
        (head : ChunkHeadToken) (toks : List ChunkToken) (crc : Nat),
      getChunkHead st init = .ok (head, st₂) →
      getDataParts (head.length + 1) st₂ head head.length
          (crc32 0 head.code) = (toks, .ok (crc, st₃)) →
      lexRead st₃ 4 = .ok (crcBytes, st₄) →
      beUint crcBytes = crc →
        processChunk st init =
          (.headTok head :: toks ++ [.endTok head true], .ok st₄)) ∧
    (∀ (fuel : Nat) (st st₁ : LexState) (init : List Nat)
        (toks : List ChunkToken) (e : PErr),
      lexRead st 1 = .ok (init, st₁) →
      processChunk st₁ init = (toks, .error e) →
        lexIter (fuel + 1) st = (toks, some e)) :=
  ⟨processChunk_bad_crc, processChunk_good_crc, lexIter_stops_on_error⟩

/-- Witness for C8: an IHDR chunk whose ninth data byte was flipped
(bit depth 9 instead of 8) while keeping the original declared CRC
produces its head and data tokens and then `BadCRC`; the trailing IEND
chunk contributes no token. -/
theorem crc_check_on_chunk_end_witness :
    processChunk
        ⟨9, [0, 0, 13, 73, 72, 68, 82, 0, 0, 0, 1, 0, 0, 0, 1, 9, 2, 0,
          0, 0, 144, 119, 83, 222, 0, 0, 0, 0, 73, 69, 78, 68, 174, 66,
          96, 130]⟩ [0] =
      ([.headTok ⟨13, [73, 72, 68, 82], 9⟩,
        .dataPartTok ⟨13, [73, 72, 68, 82], 9⟩
          [0, 0, 0, 1, 0, 0, 0, 1, 9, 2, 0, 0, 0]],
        .error .badCRC) ∧
    lexIter 37
        ⟨8, [0, 0, 0, 13, 73, 72, 68, 82, 0, 0, 0, 1, 0, 0, 0, 1, 9, 2,
          0, 0, 0, 144, 119, 83, 222, 0, 0, 0, 0, 73, 69, 78, 68, 174,
          66, 96, 130]⟩ =
      ([.headTok ⟨13, [73, 72, 68, 82], 9⟩,
        .dataPartTok ⟨13, [73, 72, 68, 82], 9⟩
          [0, 0, 0, 1, 0, 0, 0, 1, 9, 2, 0, 0, 0]],
        some .badCRC) :=
  ⟨crc_check_on_chunk_end.1
      ⟨9, [0, 0, 13, 73, 72, 68, 82, 0, 0, 0, 1, 0, 0, 0, 1, 9, 2, 0, 0,
        0, 144, 119, 83, 222, 0, 0, 0, 0, 73, 69, 78, 68, 174, 66, 96,
        130]⟩
      ⟨16, [0, 0, 0, 1, 0, 0, 0, 1, 9, 2, 0, 0, 0, 144, 119, 83, 222, 0,
        0, 0, 0, 73, 69, 78, 68, 174, 66, 96, 130]⟩
      ⟨29, [144, 119, 83, 222, 0, 0, 0, 0, 73, 69, 78, 68, 174, 66, 96,
        130]⟩
      ⟨33, [0, 0, 0, 0, 73, 69, 78, 68, 174, 66, 96, 130]⟩
      [0] [144, 119, 83, 222] ⟨13, [73, 72, 68, 82], 9⟩
      [.dataPartTok ⟨13, [73, 72, 68, 82], 9⟩
        [0, 0, 0, 1, 0, 0, 0, 1, 9, 2, 0, 0, 0]]
      2903997038 (by rfl) (by rfl) (by rfl) (by decide),
    crc_check_on_chunk_end.2.2 36
      ⟨8, [0, 0, 0, 13, 73, 72, 68, 82, 0, 0, 0, 1, 0, 0, 0, 1, 9, 2, 0,
        0, 0, 144, 119, 83, 222, 0, 0, 0, 0, 73, 69, 78, 68, 174, 66, 96,
        130]⟩
      ⟨9, [0, 0, 13, 73, 72, 68, 82, 0, 0, 0, 1, 0, 0, 0, 1, 9, 2, 0, 0,
        0, 144, 119, 83, 222, 0, 0, 0, 0, 73, 69, 78, 68, 174, 66, 96,
        130]⟩ [0]
      [.headTok ⟨13, [73, 72, 68, 82], 9⟩,
        .dataPartTok ⟨13, [73, 72, 68, 82], 9⟩
          [0, 0, 0, 1, 0, 0, 0, 1, 9, 2, 0, 0, 0]]
      .badCRC (by rfl) (by rfl)⟩

/- ===================== chunk_parsers.py / fieldvalues.py ============ -/

/-- `fieldvalues.ColorType`. -/
inductive ColorType where
  | grayscale
  | rgb
  | indexed
  | grayscaleAlpha
  | rgbAlpha
  deriving DecidableEq, Repr

/-- `fieldvalues.CompressionMethod`. -/
inductive CompressionMethod where
  | deflate32k
  deriving DecidableEq, Repr

/-- `fieldvalues.FilterMethod`. -/
inductive FilterMethod where
  | adaptiveFiveBasic
  deriving DecidableEq, Repr

/-- `fieldvalues.InterlaceMethod`. -/
inductive InterlaceMethod where
  | none
  | adam7
  deriving DecidableEq, Repr

/-- `fieldvalues.ColorType(value)`: the enum member for an integer, or
`none` (a raised `ValueError`) for a non-member value. -/
def colorTypeOfValue : Nat → Option ColorType
  | 0 => some .grayscale
  | 2 => some .rgb
  | 3 => some .indexed
  | 4 => some .grayscaleAlpha
  | 6 => some .rgbAlpha
  | _ => none

/-- `fieldvalues.CompressionMethod(value)`. -/
def compressionMethodOfValue : Nat → Option CompressionMethod
  | 0 => some .deflate32k
  | _ => none

/-- `fieldvalues.FilterMethod(value)`. -/
def filterMethodOfValue : Nat → Option FilterMethod
  | 0 => some .adaptiveFiveBasic
  | _ => none

/-- `fieldvalues.InterlaceMethod(value)`. -/
def interlaceMethodOfValue : Nat → Option InterlaceMethod
  | 0 => some .none
  | 1 => some .adam7
  | _ => none

/-- `models.ImageHeader`, as constructed by
`_ImageHeaderChunkParser.parse` (the class itself is absent from the
current `models.py`; its fields follow the construction site and the
spec's data model). -/
structure ImageHeader where
  width : Nat
  height : Nat
  bitDepth : Nat
  colorType : ColorType
  compressionMethod : CompressionMethod
  filterMethod : FilterMethod
  interlaceMethod : InterlaceMethod
  deriving DecidableEq, Repr

/-- `PNG_MAX_HEIGHT = PNG_MAX_WIDTH` of `chunk_parsers.py`. -/
def PNG_MAX_WIDTH : Nat := 2 ^ 31 - 1

/-- `PNG_MIN_WIDTH = PNG_MIN_HEIGHT` of `chunk_parsers.py`. -/
def PNG_MIN_WIDTH : Nat := 1

/-- `_ImageHeaderChunkParser._ALLOWED_BIT_DEPTHS`. -/
def IHDR_ALLOWED_BIT_DEPTHS : List Nat := [1, 2, 4, 8, 16]

/-- `_ImageHeaderChunkParser._COLOR_TYPE_BIT_DEPTHS`. -/
def colorTypeBitDepths : ColorType → List Nat
  | .grayscale => [1, 2, 4, 8, 16]
  | .rgb => [8, 16]
  | .indexed => [1, 2, 4, 8]
  | .grayscaleAlpha => [8, 16]
  | .rgbAlpha => [8, 16]

/-- The validation errors of `_ImageHeaderChunkParser` (each is a
`PNGSyntaxError` in Python; distinct tags record which check fired). -/
inductive IHDRErr where
  | badLength
  | badDimensions
  | badBitDepth
  | badColorType
  | badBitDepthForColorType
  | badCompression
  | badFilter
  | badInterlace
  deriving DecidableEq, Repr

/-- Python `==` between an int and a member of a plain `enum.Enum`
(no `__eq__` override, unlike `IntEnum`): the default identity-based
equality, `False` for every such pair — e.g.
`2 in fieldvalues.ColorType.__members__.values()` is `False`. -/
def pyIntEqEnumMember {α : Type} (_value : Nat) (_member : α) : Bool :=
  false

/-- `fieldvalues.ColorType.__members__.values()` in definition order. -/
def colorTypeMembers : List ColorType :=
  [.grayscale, .rgb, .indexed, .grayscaleAlpha, .rgbAlpha]

/-- `fieldvalues.CompressionMethod.__members__.values()`. -/
def compressionMethodMembers : List CompressionMethod := [.deflate32k]

/-- `fieldvalues.FilterMethod.__members__.values()`. -/
def filterMethodMembers : List FilterMethod := [.adaptiveFiveBasic]

/-- `fieldvalues.InterlaceMethod.__members__.values()`. -/
def interlaceMethodMembers : List InterlaceMethod := [.none, .adam7]

/-- `_AbstractLimitedLengthChunkParser._parse_value_to_enum_member`:
first the guard `value not in enumeration.__members__.values()`, which
compares the unpacked int against the Enum members themselves
(`pyIntEqEnumMember`, hence the guard rejects every int value), then
`enumeration(value)` (which would raise an uncaught `ValueError` for a
non-member value; that unreachable branch reuses the error tag). -/
def parseValueToEnumMember {α : Type} (members : List α)
    (ofValue : Nat → Option α) (err : IHDRErr) (value : Nat) :
    Except IHDRErr α :=
  if !(members.any (fun m => pyIntEqEnumMember value m)) then .error err
  else
    match ofValue value with
    | some m => .ok m
    | none => .error err

/-- `_ImageHeaderChunkParser.parse`: length check, big-endian unpack,
then dimension, bit-depth, color-type, depth-for-color-type,
compression, filter and interlace validation, in source order; the
enum-valued fields go through `_parse_value_to_enum_member`. -/
def parseIHDR (data : List Nat) : Except IHDRErr ImageHeader :=
  if data.length ≠ 13 then .error .badLength
  else
    let width := beUint (data.take 4)
    let height := beUint ((data.drop 4).take 4)
    let bitDepth := data.getD 8 0
    if width > PNG_MAX_WIDTH ∨ height > PNG_MAX_WIDTH then
      .error .badDimensions
    else if width < PNG_MIN_WIDTH ∨ height < PNG_MIN_WIDTH then
      .error .badDimensions
    else if bitDepth ∉ IHDR_ALLOWED_BIT_DEPTHS then
      .error .badBitDepth
    else
      match parseValueToEnumMember colorTypeMembers colorTypeOfValue
          .badColorType (data.getD 9 0) with
      | .error e => .error e
      | .ok colorType =>
          if bitDepth ∉ colorTypeBitDepths colorType then
            .error .badBitDepthForColorType
          else
            match parseValueToEnumMember compressionMethodMembers
                compressionMethodOfValue .badCompression
                (data.getD 10 0) with
            | .error e => .error e
            | .ok compressionMethod =>
                match parseValueToEnumMember filterMethodMembers
                    filterMethodOfValue .badFilter (data.getD 11 0) with
                | .error e => .error e
                | .ok filterMethod =>
                    match parseValueToEnumMember interlaceMethodMembers
                        interlaceMethodOfValue .badInterlace
                        (data.getD 12 0) with
                    | .error e => .error e
                    | .ok interlaceMethod =>
                        .ok ⟨width, height, bitDepth, colorType,
                          compressionMethod, filterMethod,
                          interlaceMethod⟩

/-- A payload of the wrong length fails the length check first. -/
theorem parseIHDR_bad_length (data : List Nat) (h : data.length ≠ 13) :
    parseIHDR data = .error .badLength := by
  simp only [parseIHDR]
  rw [if_pos h]

/-- The enum-member guard compares an int against Enum members, which
never compare equal, so it rejects every value. -/
theorem parseValueToEnumMember_always_errors {α : Type}
    (members : List α) (ofValue : Nat → Option α) (err : IHDRErr)
    (value : Nat) :
    parseValueToEnumMember members ofValue err value = .error err := by
  simp [parseValueToEnumMember, pyIntEqEnumMember]

/-- The IHDR parser never returns a header: every 13-byte payload that
survives the length, dimension and bit-depth checks dies at the
color-type step. -/
theorem parseIHDR_never_ok (data : List Nat) :
    isErr (parseIHDR data) = true := by
  simp only [parseIHDR, parseValueToEnumMember_always_errors]
  repeat' split
  all_goals rfl

/-- C9 (code bug): the checks before the color-type step behave as
claimed (wrong length, then out-of-range dimensions, then invalid bit
depth), but `_parse_value_to_enum_member` guards with
`value not in enumeration.__members__.values()` — an int compared
against plain Enum members, never equal — so `parse` raises
`PNGSyntaxError` at the color-type step for every remaining payload:
the claim's 1x1 rgb8 round trip and the grayscale bit-depth-16 header
are rejected instead of accepted, indexed bit-depth-16 is rejected at
the color-type step rather than the depth-for-color-type check, and no
input at all parses successfully. -/
theorem ihdr_enum_membership_bug :
    parseIHDR [1, 2, 3] = .error .badLength ∧
    parseIHDR [0, 0, 0, 0, 0, 0, 0, 1, 3, 9, 7, 7, 7] =
      .error .badDimensions ∧
    parseIHDR [0, 0, 0, 1, 0, 0, 0, 1, 3, 9, 7, 7, 7] =
      .error .badBitDepth ∧
    parseIHDR [0, 0, 0, 1, 0, 0, 0, 1, 8, 2, 0, 0, 0] =
      .error .badColorType ∧
    parseIHDR [0, 0, 0, 1, 0, 0, 0, 1, 16, 0, 0, 0, 0] =
      .error .badColorType ∧
    parseIHDR [0, 0, 0, 1, 0, 0, 0, 1, 16, 3, 0, 0, 0] =
      .error .badColorType ∧
    (∀ data : List Nat, isErr (parseIHDR data) = true) :=
  ⟨by rfl, by rfl, by rfl, by rfl, by rfl, by rfl, parseIHDR_never_ok⟩

/- ===================== image_data_parser.py ===================== -/

/-- Python `range(start, stop, step)` for a positive step. -/
def pyRange (start stop step : Nat) : List Nat :=
  (List.range ((stop - start + step - 1) / step)).map
    (fun i => start + i * step)

/-- `itertools.product` of two coordinate ranges: the right (second)
factor varies fastest. -/
def product2 (xs ys : List Nat) : List (Nat × Nat) :=
  (xs.map (fun x => ys.map (fun y => (x, y)))).flatten

/-- `_no_deinterlace_pixel_coordinates`: the single pass is
`product(range(width), range(height))`, so the x coordinate is the outer
loop. -/
def noDeinterlacePixelCoordinates (width height : Nat) :
    List (List (Nat × Nat)) :=
  [product2 (pyRange 0 width 1) (pyRange 0 height 1)]

/-- `_adam7_deinterlace_pixel_coordinates`: seven
`product(range(..x..), range(..y..))` passes, x outer in each. -/
def adam7DeinterlacePixelCoordinates (width height : Nat) :
    List (List (Nat × Nat)) :=
  [product2 (pyRange 0 width 8) (pyRange 0 height 8),
    product2 (pyRange 4 width 8) (pyRange 0 height 8),
    product2 (pyRange 0 width 4) (pyRange 4 height 8),
    product2 (pyRange 2 width 4) (pyRange 0 height 4),
    product2 (pyRange 0 width 2) (pyRange 2 height 4),
    product2 (pyRange 1 width 2) (pyRange 0 height 2),
    product2 (pyRange 0 width 1) (pyRange 1 height 2)]

/-- Modelled from the spec: a pass enumerated in scanline-major order,
the y coordinate in the outer loop and x in the inner loop. -/
def specScanlineMajorPass (xs ys : List Nat) : List (Nat × Nat) :=
  (ys.map (fun y => xs.map (fun x => (x, y)))).flatten

/-- Modelled from the spec: the single non-interlaced pass in
scanline-major order. -/
def specNoDeinterlaceCoordinates (width height : Nat) :
    List (List (Nat × Nat)) :=
  [specScanlineMajorPass (pyRange 0 width 1) (pyRange 0 height 1)]

/-- Modelled from the spec: the seven Adam7 passes, each enumerated
scanline-major over its sub-grid. -/
def specAdam7Coordinates (width height : Nat) :
    List (List (Nat × Nat)) :=
  [specScanlineMajorPass (pyRange 0 width 8) (pyRange 0 height 8),
    specScanlineMajorPass (pyRange 4 width 8) (pyRange 0 height 8),
    specScanlineMajorPass (pyRange 0 width 4) (pyRange 4 height 8),
    specScanlineMajorPass (pyRange 2 width 4) (pyRange 0 height 4),
    specScanlineMajorPass (pyRange 0 width 2) (pyRange 2 height 4),
    specScanlineMajorPass (pyRange 1 width 2) (pyRange 0 height 2),
    specScanlineMajorPass (pyRange 0 width 1) (pyRange 1 height 2)]

/-- C1 (code bug): `_no_deinterlace_pixel_coordinates` enumerates the
2x2 image as (0,0),(0,1),(1,0),(1,1) — column-major, x in the outer
loop — not the scanline-major (0,0),(1,0),(0,1),(1,1) stated by the
spec and by the locator docstring ("the order the pixels will arrive in
the stream"); likewise Adam7 pass 7 of a 3x5 image is enumerated
column-major. -/
theorem pixel_order_column_major_bug :
    noDeinterlacePixelCoordinates 2 2 = [[(0, 0), (0, 1), (1, 0), (1, 1)]] ∧
    specNoDeinterlaceCoordinates 2 2 =
      [[(0, 0), (1, 0), (0, 1), (1, 1)]] ∧
    noDeinterlacePixelCoordinates 2 2 ≠ specNoDeinterlaceCoordinates 2 2 ∧
    (adam7DeinterlacePixelCoordinates 3 5).getD 6 [] =
      [(0, 1), (0, 3), (1, 1), (1, 3), (2, 1), (2, 3)] ∧
    (specAdam7Coordinates 3 5).getD 6 [] =
      [(0, 1), (1, 1), (2, 1), (0, 3), (1, 3), (2, 3)] ∧
    (adam7DeinterlacePixelCoordinates 3 5).getD 6 [] ≠
      (specAdam7Coordinates 3 5).getD 6 [] := by
  refine ⟨by decide, by decide, by decide, by decide, by decide, by decide⟩

/-- Ceiling division on naturals, the exact value of
`math.ceil(a / b)`. -/
def ceilDiv (a b : Nat) : Nat := (a + b - 1) / b

/-- `_calculate_bits_per_pixel`'s `samples_per_pixel` table (note:
indexed maps to 3). -/
def samplesPerPixel : ColorType → Nat
  | .grayscale => 1
  | .rgb => 3
  | .indexed => 3
  | .grayscaleAlpha => 2
  | .rgbAlpha => 4

/-- `_calculate_bits_per_pixel`. -/
def calculateBitsPerPixel (colorType : ColorType) (bitDepth : Nat) : Nat :=
  samplesPerPixel colorType * bitDepth

/-- `_calculate_scanline_sizes`: for `none`, `height` scanlines of
`1 + ceil(width * bits_per_pixel / 8)` bytes; the adam7 branch emits its
eight literal `repeat` groups (Python's `max(x - k, 0)` is natural
subtraction here). -/
def calculateScanlineSizes (width height : Nat) (colorType : ColorType)
    (bitDepth : Nat) (interlaceMethod : InterlaceMethod) : List Nat :=
  let bitsPerPixel := calculateBitsPerPixel colorType bitDepth
  match interlaceMethod with
  | .none => List.replicate height (1 + ceilDiv (width * bitsPerPixel) 8)
  | .adam7 =>
      List.replicate (ceilDiv height 8) (1 + ceilDiv width 8) ++
      List.replicate (ceilDiv height 8) (1 + ceilDiv (width - 4) 8) ++
      List.replicate (ceilDiv height 4) (1 + ceilDiv (width - 4) 8) ++
      List.replicate (ceilDiv (height - 4) 4) (1 + ceilDiv width 4) ++
      List.replicate (ceilDiv height 4) (1 + ceilDiv (width - 2) 4) ++
      List.replicate (ceilDiv (height - 2) 4) (1 + ceilDiv width 2) ++
      List.replicate (ceilDiv height 2) (1 + ceilDiv (width - 1) 2) ++
      List.replicate (ceilDiv (height - 1) 2) (1 + width)

/-- Modelled from the spec: samples per pixel with 1 sample for indexed
color (a palette index). -/
def specSamplesPerPixel : ColorType → Nat
  | .grayscale => 1
  | .rgb => 3
  | .indexed => 1
  | .grayscaleAlpha => 2
  | .rgbAlpha => 4

/-- Modelled from the spec: the Adam7 pass table of
(x start, x stride, y start, y stride). -/
def specPassTable : List (Nat × Nat × Nat × Nat) :=
  [(0, 8, 0, 8), (4, 8, 0, 8), (0, 4, 4, 8), (2, 4, 0, 4),
    (0, 2, 2, 4), (1, 2, 0, 2), (0, 1, 1, 2)]

/-- Modelled from the spec: scanline sizes, for `none` `height` lines of
`1 + ceil(width * bpp / 8)` bytes, for `adam7` one group per pass with
the pass's reduced dimensions, a pass of zero reduced width or height
contributing no scanlines. -/
def specScanlineSizes (width height : Nat) (colorType : ColorType)
    (bitDepth : Nat) (interlaceMethod : InterlaceMethod) : List Nat :=
  let bpp := specSamplesPerPixel colorType * bitDepth
  match interlaceMethod with
  | .none => List.replicate height (1 + ceilDiv (width * bpp) 8)
  | .adam7 =>
      (specPassTable.map (fun q =>
        let reducedWidth := ceilDiv (width - q.1) q.2.1
        let reducedHeight := ceilDiv (height - q.2.2.1) q.2.2.2
        if reducedWidth = 0 then []
        else List.replicate reducedHeight
          (1 + ceilDiv (reducedWidth * bpp) 8))).flatten

/-- C2 (code bug): the bits-per-pixel table counts 3 samples for indexed
color instead of 1, and the adam7 branch of
`_calculate_scanline_sizes` emits eight groups of sizes that ignore
bits-per-pixel entirely, so both differ from the specified scanline
sizes on concrete headers. -/
theorem scanline_sizes_bug :
    calculateBitsPerPixel .indexed 8 = 24 ∧
    specSamplesPerPixel .indexed * 8 = 8 ∧
    calculateScanlineSizes 1 1 .indexed 8 .none = [4] ∧
    specScanlineSizes 1 1 .indexed 8 .none = [2] ∧
    calculateScanlineSizes 8 8 .rgb 8 .adam7 =
      [2, 2, 2, 2, 3, 3, 3, 5, 5, 5, 5, 5, 5, 9, 9, 9, 9] ∧
    specScanlineSizes 8 8 .rgb 8 .adam7 =
      [4, 4, 7, 7, 7, 13, 13, 13, 13, 13, 13, 25, 25, 25, 25] ∧
    calculateScanlineSizes 8 8 .rgb 8 .adam7 ≠
      specScanlineSizes 8 8 .rgb 8 .adam7 := by
  refine ⟨by decide, by decide, by decide, by decide, by decide,
    by decide, by decide⟩

/-- The loop of
`_AdaptiveFiveBasicSubimageUnfilterer._unfilter_with_method_average`.
`decoded` is `decoded_scanline_bytes`, so the current position `pos` is
`decoded.length`; `prior` is `self._last_scanline_data[pos]` and, when
`pos - bytes_per_pixel >= 0`, `raw` is `decoded_scanline_bytes[pos]` —
an index one past the end of `decoded`, modelled by `List.get?`
returning `none` (Python raises `IndexError`). -/
def unfilterAverageGo (bytesPerPixel : Nat) (lastScanlineData : List Nat) :
    List Nat → List Nat → Option (List Nat)
  | decoded, [] => some decoded
  | decoded, filteredByte :: rest =>
      match lastScanlineData.get? decoded.length with
      | none => none
      | some prior =>
          match
            if decoded.length < bytesPerPixel then some 0
            else decoded.get? decoded.length with
          | none => none
          | some raw =>
              unfilterAverageGo bytesPerPixel lastScanlineData
                (decoded ++ [(filteredByte + (raw + prior) / 2) % 256]) rest

/-- `_unfilter_with_method_average` on one scanline's filtered data,
given the reconstructed previous scanline. -/
def unfilterWithMethodAverage (bytesPerPixel : Nat)
    (lastScanlineData scanlineData : List Nat) : Option (List Nat) :=
  unfilterAverageGo bytesPerPixel lastScanlineData [] scanlineData

/-- Modelled from the spec: average reconstruction,
`Recon(x) = (Filt(x) + floor((a + b) / 2)) mod 256` with `a` the
reconstructed byte at `x - bytes_per_pixel` of the current scanline
(0 when that is negative) and `b` the byte at `x` of the previous
scanline. -/
def specUnfilterAverageGo (bytesPerPixel : Nat)
    (lastScanlineData : List Nat) : List Nat → List Nat → List Nat
  | decoded, [] => decoded
  | decoded, filteredByte :: rest =>
      let a : Nat :=
        if decoded.length < bytesPerPixel then 0
        else decoded.getD (decoded.length - bytesPerPixel) 0
      let b : Nat := lastScanlineData.getD decoded.length 0
      specUnfilterAverageGo bytesPerPixel lastScanlineData
        (decoded ++ [(filteredByte + (a + b) / 2) % 256]) rest

/-- Modelled from the spec: average reconstruction of a whole
scanline. -/
def specUnfilterAverage (bytesPerPixel : Nat)
    (lastScanlineData scanlineData : List Nat) : List Nat :=
  specUnfilterAverageGo bytesPerPixel lastScanlineData [] scanlineData

/-- C3 (code bug): on an average-filtered scanline the reconstruction
reads `decoded_scanline_bytes[pos]` (one past the end of the bytes
reconstructed so far, an `IndexError`) instead of the byte at
`pos - bytes_per_pixel`, so every position with `x >= bytes_per_pixel`
fails where the spec's recurrence produces a value. -/
theorem average_filter_bug :
    unfilterWithMethodAverage 1 [10, 20] [5, 5] = none ∧
    specUnfilterAverage 1 [10, 20] [5, 5] = [10, 20] ∧
    unfilterWithMethodAverage 1 [10, 20] [5, 5] ≠
      some (specUnfilterAverage 1 [10, 20] [5, 5]) := by
  refine ⟨by decide, by decide, by decide⟩
